import Mathlib

/-!
Verification of the nixo-fde-slackbot issue-grouping dashboard.

The repository's persistence layer is a Postgres (Supabase) schema
(`schema.sql`: tables `messages`, `issue_groups`, `message_groups`) and the
frontend mutates it through the Supabase client
(`frontend/src/components/IssueModal.tsx`, `frontend/src/hooks/useIssueGroups.ts`,
`frontend/src/utils.ts`).  We embed the database state as lists of rows and
each frontend operation as a function on that state, mirroring the exact
sequence of client calls (each `await` being an observable point) and the
SQL-level semantics of primary keys, foreign keys, check constraints,
`ON DELETE CASCADE` and the `update_updated_at_column` trigger.

SQL `FLOAT` / JS numbers are modelled as `ℚ`; `TIMESTAMPTZ` values are
modelled by their epoch-millisecond value (what `new Date(s).getTime()`
yields), so date comparisons are integer comparisons.
-/

/-- JS `x || 1.0` where `x` may be `undefined` (modelled `none`):
`undefined` and `0` are falsy, any other number is truthy. -/
def jsOrOne (x : Option ℚ) : ℚ :=
  match x with
  | none => 1
  | some s => if s = 0 then 1 else s

/-- JS `s.charAt(0).toUpperCase() + s.slice(1)` (as in `handleSplitMessage`'s
title construction). -/
def capitalizeFirst (s : String) : String :=
  match s.data with
  | [] => ""
  | c :: cs => String.mk (c.toUpper :: cs)

/-- `charsStartWith hay needle`: `needle` occurs at the head of `hay`. -/
def charsStartWith : List Char → List Char → Bool
  | _, [] => true
  | [], _ :: _ => false
  | a :: as, b :: bs => a == b && charsStartWith as bs

/-- `charsContain hay needle`: `needle` occurs contiguously inside `hay`. -/
def charsContain : List Char → List Char → Bool
  | [], needle => needle.isEmpty
  | a :: as, needle => charsStartWith (a :: as) needle || charsContain as needle

/-- JS `hay.includes(needle)` (substring containment). -/
def jsIncludes (hay needle : String) : Bool :=
  charsContain hay.data needle.data

/-- JS `s.trim()`: leading and trailing whitespace removed. -/
def jsTrim (s : String) : String :=
  String.mk (((s.data.dropWhile Char.isWhitespace).reverse.dropWhile
    Char.isWhitespace).reverse)

/-- A row of the `messages` table (`schema.sql`), restricted to the columns the
frontend operations read: `id`, `text`, `category`, `summary`.  Note the table
has no `similarity_score` column. -/
structure MessageRow where
  id : String
  text : String
  category : String
  summary : String
deriving DecidableEq, Repr

/-- The runtime message object handled by `IssueModal.tsx`.  It is a row of
`messages` as fetched by `fetchGroupMessages` (`select('messages(*)')`); the
`similarity_score` property is not among those columns, so reading it yields
`undefined`, modelled as an `Option ℚ` that the fetch leaves at `none`. -/
structure Message where
  id : String
  text : String
  category : String
  summary : String
  similarity_score : Option ℚ
deriving DecidableEq, Repr

/-- A row of the `message_groups` junction table:
`(message_id, group_id)` primary key plus the `similarity_score` column. -/
structure MessageGroupRow where
  message_id : String
  group_id : String
  similarity_score : Option ℚ
deriving DecidableEq, Repr

/-- A row of the `issue_groups` table, with the columns added by the JIRA-lite
migration (`priority`, `workflow_status`). `created_at`/`updated_at` are epoch
milliseconds. -/
structure IssueGroup where
  id : String
  title : String
  summary : String
  category : String
  status : String
  priority : String
  workflow_status : String
  assignee : Option String
  due_date : Option String
  created_at : Int
  updated_at : Int
deriving DecidableEq, Repr

/-- The database state: the three tables of `schema.sql`. -/
structure DB where
  messages : List MessageRow
  groups : List IssueGroup
  memberships : List MessageGroupRow
deriving DecidableEq, Repr

/-- The `CHECK (category IN ('support','bug','feature','question'))`
constraint on `issue_groups.category`. -/
def validGroupCategory (c : String) : Bool :=
  c == "support" || c == "bug" || c == "feature" || c == "question"

/-- The base schema's `CHECK (status IN ('open','closed'))` constraint on
`issue_groups.status` (`schema.sql`, `issue_groups` table). -/
def statusCheckBase (s : String) : Bool :=
  s == "open" || s == "closed"

/-- SQL `DELETE FROM message_groups WHERE message_id = mid AND group_id = gid`. -/
def deleteMembership (db : DB) (mid gid : String) : DB :=
  { db with memberships :=
      db.memberships.filter (fun mb => !(mb.message_id == mid && mb.group_id == gid)) }

/-- SQL `INSERT INTO message_groups (message_id, group_id, similarity_score)`.
The insert succeeds only if both foreign keys resolve and the composite
primary key `(message_id, group_id)` is not already present; on failure the
row set is unchanged (the Supabase client reports an error, which the calling
frontend code ignores). -/
def insertMembership (db : DB) (mid gid : String) (score : ℚ) : DB :=
  if (db.groups.any (fun g => g.id == gid)) && (db.messages.any (fun r => r.id == mid))
      && !(db.memberships.any (fun mb => mb.message_id == mid && mb.group_id == gid)) then
    { db with memberships := db.memberships ++ [⟨mid, gid, some score⟩] }
  else
    db

/-- SQL `DELETE FROM issue_groups WHERE id = gid`; memberships referencing the
group are removed by `ON DELETE CASCADE` on `message_groups.group_id`. -/
def deleteGroupCascade (db : DB) (gid : String) : DB :=
  { db with
      groups := db.groups.filter (fun g => !(g.id == gid)),
      memberships := db.memberships.filter (fun mb => !(mb.group_id == gid)) }

/-- SQL `INSERT INTO issue_groups ...` returning the inserted row's table
state, or `none` when a constraint (category check, duplicate id) rejects it. -/
def insertGroupRow (db : DB) (g : IssueGroup) : Option DB :=
  if validGroupCategory g.category && !(db.groups.any (fun g0 => g0.id == g.id)) then
    some { db with groups := db.groups ++ [g] }
  else
    none

/-- The columns of `issue_groups` edited by the dashboard's single-field
update handlers. -/
inductive GroupColumn where
  | status
  | priority
  | workflow_status
  | title
  | assignee
deriving DecidableEq, Repr

/-- One `issue_groups` row after `UPDATE issue_groups SET <column> = v`:
the edited column is replaced and the `update_updated_at_column` trigger
(`BEFORE UPDATE ON issue_groups`) sets `updated_at = NOW()`. -/
def applyColumnUpdate (g : IssueGroup) (c : GroupColumn) (v : String) (now : Int) : IssueGroup :=
  let g' :=
    match c with
    | .status => { g with status := v }
    | .priority => { g with priority := v }
    | .workflow_status => { g with workflow_status := v }
    | .title => { g with title := v }
    | .assignee => { g with assignee := some v }
  { g' with updated_at := now }

/-- The frontend's uniform single-column edit:
`supabase.from('issue_groups').update({ <column>: v }).eq('id', gid)`, as
issued by `toggleGroupStatus`, `handleUpdatePriority`,
`handleUpdateWorkflowStatus` and `handleSaveTitle`, combined with the
`update_updated_at_column` trigger. -/
def updateGroupColumn (db : DB) (gid : String) (c : GroupColumn) (v : String) (now : Int) : DB :=
  { db with groups :=
      db.groups.map (fun g => if g.id == gid then applyColumnUpdate g c v now else g) }

/-- `useIssueGroups.toggleGroupStatus`'s new status value:
`currentStatus === 'open' ? 'resolved' : 'open'`. -/
def toggleNewStatus (currentStatus : String) : String :=
  if currentStatus == "open" then "resolved" else "open"

/-- `useIssueGroups.toggleGroupStatus`: updates only the legacy `status`
column of the given group. -/
def toggleGroupStatus (db : DB) (gid : String) (currentStatus : String) (now : Int) : DB :=
  updateGroupColumn db gid .status (toggleNewStatus currentStatus) now

/-- `IssueModal.handleUpdatePriority`. -/
def handleUpdatePriority (db : DB) (gid : String) (newPriority : String) (now : Int) : DB :=
  updateGroupColumn db gid .priority newPriority now

/-- `IssueModal.handleUpdateWorkflowStatus`. -/
def handleUpdateWorkflowStatus (db : DB) (gid : String) (newStatus : String) (now : Int) : DB :=
  updateGroupColumn db gid .workflow_status newStatus now

/-- `IssueModal.handleSaveTitle`: a no-op when the edited title is blank or
unchanged, otherwise a single-column update of `title` with the trimmed text. -/
def handleSaveTitle (db : DB) (gid : String) (currentTitle editedTitle : String) (now : Int) : DB :=
  if jsTrim editedTitle == "" || editedTitle == currentTitle then db
  else updateGroupColumn db gid .title (jsTrim editedTitle) now

/-- Modelled from the spec: the assignee edit ("Status/priority/assignee/title
edits: direct field updates on a group").  No assignee handler exists in the
sources; it is modelled as the same single-column update pattern used by the
other three handlers. -/
def setAssignee (db : DB) (gid : String) (newAssignee : String) (now : Int) : DB :=
  updateGroupColumn db gid .assignee newAssignee now

/-- `useGroupMessages.fetchGroupMessages`:
`supabase.from('message_groups').select('messages(*)').eq('group_id', gid)`
followed by `data.map(row => row.messages).filter(Boolean)`.  Each membership
row of the group is joined to its `messages` row; only `messages` columns are
selected, so the produced objects carry no `similarity_score` (`none`). -/
def fetchGroupMessages (db : DB) (gid : String) : List Message :=
  (db.memberships.filter (fun mb => mb.group_id == gid)).filterMap
    (fun mb =>
      (db.messages.find? (fun r => r.id == mb.message_id)).map
        (fun r => { id := r.id, text := r.text, category := r.category,
                    summary := r.summary, similarity_score := none }))

/-- One iteration of `handleMergeIntoGroup`'s loop: delete the membership of
`msg` on the source group, then insert a membership on the target group with
`msg.similarity_score || 1.0`.  Errors of both calls are ignored by the code. -/
def mergeStep (sourceId targetId : String) (db : DB) (msg : Message) : DB :=
  insertMembership (deleteMembership db msg.id sourceId)
    msg.id targetId (jsOrOne msg.similarity_score)

/-- `IssueModal.handleMergeIntoGroup`: for each message of the open modal's
group, delete its membership on the source group and insert one on the target
group; finally delete the source group.  Every call is a separate Supabase
request; none of them run inside a transaction. -/
def handleMergeIntoGroup (db : DB) (groupMessages : List Message)
    (sourceId targetId : String) : DB :=
  deleteGroupCascade (groupMessages.foldl (mergeStep sourceId targetId) db) sourceId

/-- The sequence of database states observable between the individual awaited
requests of `handleMergeIntoGroup` (one state after each delete, one after
each insert, one after the final group delete). -/
def mergeObservableStates (db : DB) (groupMessages : List Message)
    (sourceId targetId : String) : List DB :=
  match groupMessages with
  | [] => [deleteGroupCascade db sourceId]
  | msg :: rest =>
      let d1 := deleteMembership db msg.id sourceId
      let d2 := insertMembership d1 msg.id targetId (jsOrOne msg.similarity_score)
      d1 :: d2 :: mergeObservableStates d2 rest sourceId targetId

/-- The new group's title in `handleSplitMessage`:
`` `${category[0].toUpperCase()+category.slice(1)}: ${summary.slice(0,50)}` ``. -/
def splitTitle (msg : Message) : String :=
  capitalizeFirst msg.category ++ ": " ++ String.mk (msg.summary.data.take 50)

/-- The row inserted into `issue_groups` by `handleSplitMessage`; columns not
in the insert payload take their schema defaults (`priority 'medium'`,
`workflow_status 'backlog'`, `NOW()` timestamps, null assignee/due date). -/
def mkSplitGroup (msg : Message) (newId : String) (now : Int) : IssueGroup :=
  { id := newId, title := splitTitle msg, summary := msg.summary,
    category := msg.category, status := "open", priority := "medium",
    workflow_status := "backlog", assignee := none, due_date := none,
    created_at := now, updated_at := now }

/-- `IssueModal.handleSplitMessage`: find the message among the modal's
messages (silently returning otherwise); insert a new singleton group (a
failed insert throws, aborting before any other write); delete the membership
on the current group; insert a membership on the new group with similarity
1.0.  The source group is never deleted, whatever its remaining size. -/
def handleSplitMessage (db : DB) (groupMessages : List Message)
    (messageId selectedGroupId newId : String) (now : Int) : DB :=
  match groupMessages.find? (fun m => m.id == messageId) with
  | none => db
  | some message =>
      match insertGroupRow db (mkSplitGroup message newId now) with
      | none => db
      | some db1 =>
          let db2 := deleteMembership db1 messageId selectedGroupId
          insertMembership db2 messageId newId 1

/-- `utils.getTimeFilterDate`: `'all'` yields no cutoff, the other filters a
cutoff that many milliseconds before `now`; unknown values fall to the
`default: return null` branch. -/
def getTimeFilterDate (now : Int) (filter : String) : Option Int :=
  if filter == "all" then none
  else if filter == "24h" then some (now - 24 * 60 * 60 * 1000)
  else if filter == "7d" then some (now - 7 * 24 * 60 * 60 * 1000)
  else if filter == "30d" then some (now - 30 * 24 * 60 * 60 * 1000)
  else none

/-- `utils.filterIssueGroups`: three chained `.filter` passes — category
match-or-`'all'`, creation date on-or-after the time-filter cutoff, and
case-insensitive substring search over title and summary (skipped when the
trimmed query is empty, JS falsiness of `''`). -/
def filterIssueGroups (now : Int) (groups : List IssueGroup)
    (selectedCategory selectedTimeFilter searchQuery : String) : List IssueGroup :=
  ((groups.filter (fun g => selectedCategory == "all" || g.category == selectedCategory)).filter
      (fun g =>
        match getTimeFilterDate now selectedTimeFilter with
        | none => true
        | some cutoff => cutoff ≤ g.created_at)).filter
    (fun g =>
      if jsTrim searchQuery == "" then true
      else
        jsIncludes g.title.toLower searchQuery.toLower
          || jsIncludes g.summary.toLower searchQuery.toLower)

/-- Modelled from the spec: one entry of the Embedding Store's
`nearest(vector, category, k, window)` result — `(messageId, groupId,
cosineSimilarity)`, ordered by descending similarity.  The backing code
(`backend/app/grouping.py`) is not among the sources. -/
structure Neighbor where
  messageId : String
  groupId : String
  cosineSim : ℚ
deriving DecidableEq, Repr

/-- Modelled from the spec: the outcome of the assignment algorithm — either
assignment to an existing group with the recorded similarity score, or
allocation of a new group. -/
inductive Assignment where
  | existing (groupId : String) (score : ℚ)
  | created (groupId : String)
deriving DecidableEq, Repr

/-- Modelled from the spec: the Thread Index lookup — the thread id of the
message (if any) resolved against the map from thread ids to group ids. -/
def threadLookup (threadIndex : List (String × String)) (threadId : Option String) :
    Option String :=
  threadId.bind (fun t => (threadIndex.find? (fun p => p.1 == t)).map (fun p => p.2))

/-- Modelled from the spec: the configured similarity threshold `T`
(default 0.60, as also stated in the README's troubleshooting section). -/
def similarityThreshold : ℚ := mkRat 3 5

/-- Modelled from the spec: the Grouping Engine's assignment algorithm
(`backend/app/grouping.py` is not among the sources).  Strict priority
order: (1) thread affinity — an indexed thread id assigns to its group
unconditionally with score 1.0; (2) semantic nearest neighbor — join the best
match's group iff its cosine similarity is ≥ `T`; (3) otherwise allocate a
new group, and (4) register it in the Thread Index when the message has a
thread id.  `neighbors` is the Embedding Store's category-restricted result,
best match first; `newGroupId` is the id a freshly allocated group receives. -/
def processMessage (threadIndex : List (String × String)) (threadId : Option String)
    (neighbors : List Neighbor) (newGroupId : String) :
    Assignment × List (String × String) :=
  match threadLookup threadIndex threadId with
  | some g => (.existing g 1, threadIndex)
  | none =>
      match neighbors.head? with
      | some best =>
          if similarityThreshold ≤ best.cosineSim then
            (.existing best.groupId best.cosineSim, threadIndex)
          else
            (.created newGroupId,
              match threadId with
              | some t => (t, newGroupId) :: threadIndex
              | none => threadIndex)
      | none =>
          (.created newGroupId,
            match threadId with
            | some t => (t, newGroupId) :: threadIndex
            | none => threadIndex)

/-- Whether a membership row with the given pair exists. -/
def hasPair (db : DB) (mid gid : String) : Bool :=
  db.memberships.any (fun mb => mb.message_id == mid && mb.group_id == gid)

/-- The similarity score stored on the membership row of a given pair
(`none` when no such row exists). -/
def scoreOf (db : DB) (mid gid : String) : Option (Option ℚ) :=
  (db.memberships.find? (fun mb => mb.message_id == mid && mb.group_id == gid)).map
    (fun mb => mb.similarity_score)

/-- The message ids currently linked to a group, in row order. -/
def sourceIds (db : DB) (gid : String) : List String :=
  (db.memberships.filter (fun mb => mb.group_id == gid)).map (fun mb => mb.message_id)

/-- Number of membership rows of a group. -/
def groupMemberCount (db : DB) (gid : String) : Nat :=
  (db.memberships.filter (fun mb => mb.group_id == gid)).length

/-- Every membership row's message id resolves to a `messages` row
(the `message_groups.message_id` foreign key). -/
def fkMessages (db : DB) : Prop :=
  ∀ mb ∈ db.memberships, ∃ r ∈ db.messages, r.id = mb.message_id

/-- Invariant I2 at the row level: any two membership rows of the same message
are the same row — a message has at most one membership. -/
def exclusiveMemberships (db : DB) : Prop :=
  ∀ mb1 ∈ db.memberships, ∀ mb2 ∈ db.memberships,
    mb1.message_id = mb2.message_id → mb1 = mb2

/-- All fields of an `issue_groups` row other than the edited column and
`updated_at` are unchanged between `g` and `g'`. -/
def framePreserved (g g' : IssueGroup) (c : GroupColumn) : Prop :=
  g'.id = g.id ∧ g'.summary = g.summary ∧ g'.category = g.category ∧
  g'.due_date = g.due_date ∧ g'.created_at = g.created_at ∧
  (c = .status ∨ g'.status = g.status) ∧
  (c = .priority ∨ g'.priority = g.priority) ∧
  (c = .workflow_status ∨ g'.workflow_status = g.workflow_status) ∧
  (c = .title ∨ g'.title = g.title) ∧
  (c = .assignee ∨ g'.assignee = g.assignee)

/-- A sample `issue_groups` row used for the concrete scenarios below. -/
def sampleGroup (gid : String) (cat : String) : IssueGroup :=
  { id := gid, title := "t " ++ gid, summary := "s " ++ gid, category := cat,
    status := "open", priority := "medium", workflow_status := "backlog",
    assignee := none, due_date := none, created_at := 0, updated_at := 0 }

/-- A sample `messages` row used for the concrete scenarios below. -/
def sampleMessage (mid : String) : MessageRow :=
  { id := mid, text := "text " ++ mid, category := "bug", summary := "sum " ++ mid }

/-- Concrete state: source group `S` with two members, target group `T`
already holding one member (all invariants satisfied). -/
def mergeDemoDB : DB :=
  { messages := [sampleMessage "m1", sampleMessage "m2", sampleMessage "m3"],
    groups := [sampleGroup "S" "bug", sampleGroup "T" "bug"],
    memberships :=
      [⟨"m1", "S", some (mkRat 4 5)⟩, ⟨"m2", "S", some (mkRat 7 10)⟩, ⟨"m3", "T", some (mkRat 9 10)⟩] }

/-- Concrete state: source group `S` with two members and no group `T`
(the "just-deleted target" scenario). -/
def mergeLostTargetDB : DB :=
  { messages := [sampleMessage "m1", sampleMessage "m2"],
    groups := [sampleGroup "S" "bug"],
    memberships := [⟨"m1", "S", some (mkRat 4 5)⟩, ⟨"m2", "S", some (mkRat 7 10)⟩] }

/-- Concrete state: singleton group `G` holding only message `x1`. -/
def splitDemoDB : DB :=
  { messages := [sampleMessage "x1"],
    groups := [sampleGroup "G" "bug"],
    memberships := [⟨"x1", "G", some (mkRat 4 5)⟩] }

/-- Concrete state: message `m` a member of `g1`, with a second group `g2`
present (for the exclusivity-enforcement scenario). -/
def twoGroupsDB : DB :=
  { messages := [sampleMessage "m"],
    groups := [sampleGroup "g1" "bug", sampleGroup "g2" "bug"],
    memberships := [⟨"m", "g1", some (mkRat 4 5)⟩] }

/-- C1: the claim says Merge is atomic with no partial effect on failure.  The
code refutes it: on `mergeLostTargetDB` (target `T` absent — "just-deleted
target") the merge deletes every membership and the source group, losing both
messages instead of leaving the state unchanged; and on `mergeDemoDB` (target
present) the trace of states between the individual awaited requests contains
a state where `m1` has moved to `T` while `m2` still references `S`. -/
theorem merge_failure_loses_data :
    (handleMergeIntoGroup mergeLostTargetDB
        (fetchGroupMessages mergeLostTargetDB "S") "S" "T").memberships = []
    ∧ (handleMergeIntoGroup mergeLostTargetDB
        (fetchGroupMessages mergeLostTargetDB "S") "S" "T").groups = []
    ∧ mergeLostTargetDB.memberships ≠ []
    ∧ ((mergeObservableStates mergeDemoDB (fetchGroupMessages mergeDemoDB "S") "S" "T").any
        (fun st => hasPair st "m1" "T" && hasPair st "m2" "S")) = true := by
  decide

/-- C2 counterexample: in `mergeDemoDB` the membership of `m1` on the source
group carries similarity score 4/5, yet after the merge the sole membership of
`m1` is on the target with score 1 — "preserving the original similarity
score" is false on the code. -/
theorem merge_score_not_preserved_cex :
    scoreOf mergeDemoDB "m1" "S" = some (some (mkRat 4 5))
    ∧ scoreOf (handleMergeIntoGroup mergeDemoDB
        (fetchGroupMessages mergeDemoDB "S") "S" "T") "m1" "T" = some (some 1)
    ∧ ((handleMergeIntoGroup mergeDemoDB
        (fetchGroupMessages mergeDemoDB "S") "S" "T").memberships.filter
          (fun mb => mb.message_id == "m1")).length = 1 := by
  decide

/-- C3 counterexample: splitting the sole message `x1` out of the singleton
group `G` leaves `G` in `issue_groups` with zero members — the claim that the
emptied source group is deleted is false on the code. -/
theorem split_keeps_empty_source_group_cex :
    ((handleSplitMessage splitDemoDB (fetchGroupMessages splitDemoDB "G")
        "x1" "G" "N" 5).groups.filter (fun g => g.id == "G")).length = 1
    ∧ groupMemberCount
        (handleSplitMessage splitDemoDB (fetchGroupMessages splitDemoDB "G")
          "x1" "G" "N" 5) "G" = 0 := by
  decide

/-- C5 counterexample: with `m` already a member of `g1`, the insert of a
membership of `m` on `g2` passes every constraint of the schema (the primary
key is the pair `(message_id, group_id)`), so afterwards `m` belongs to two
groups at once — the claimed unique-per-message rejection does not exist. -/
theorem membership_second_group_accepted_cex :
    hasPair (insertMembership twoGroupsDB "m" "g2" (mkRat 1 2)) "m" "g1" = true
    ∧ hasPair (insertMembership twoGroupsDB "m" "g2" (mkRat 1 2)) "m" "g2" = true
    ∧ scoreOf (insertMembership twoGroupsDB "m" "g2" (mkRat 1 2)) "m" "g2"
        = some (some (mkRat 1 2)) := by
  decide

/-- C5 amended: what the schema does enforce is pair-level uniqueness — an
insert whose `(message_id, group_id)` pair already exists is rejected by the
composite primary key and leaves the table unchanged. -/
theorem insertMembership_pair_unique (db : DB) (mid gid : String) (score : ℚ)
    (h : hasPair db mid gid = true) :
    insertMembership db mid gid score = db := by
  unfold insertMembership
  unfold hasPair at h
  simp [h]

/-- Witness for `insertMembership_pair_unique`: re-inserting the existing pair
`("m","g1")` of `twoGroupsDB` is a no-op. -/
theorem insertMembership_pair_unique_witness :
    insertMembership twoGroupsDB "m" "g1" (mkRat 1 2) = twoGroupsDB :=
  insertMembership_pair_unique twoGroupsDB "m" "g1" (mkRat 1 2) (by decide)

/-- C9: `toggleGroupStatus` issues an update of the legacy `status` column
alone — `'resolved'` when the current status is `'open'`, `'open'` for any
other current value — and `'resolved'` is outside the base schema's
`CHECK (status IN ('open','closed'))` constraint for that column. -/
theorem toggleGroupStatus_spec (db : DB) (gid s : String) (now : Int) :
    toggleGroupStatus db gid s now
      = updateGroupColumn db gid .status (if s = "open" then "resolved" else "open") now
    ∧ (∀ g : IssueGroup,
        (applyColumnUpdate g .status (toggleNewStatus s) now).status
            = (if s = "open" then "resolved" else "open")
          ∧ framePreserved g (applyColumnUpdate g .status (toggleNewStatus s) now) .status
          ∧ (applyColumnUpdate g .status (toggleNewStatus s) now).updated_at = now)
    ∧ statusCheckBase "resolved" = false
    ∧ statusCheckBase "open" = true ∧ statusCheckBase "closed" = true := by
  refine ⟨?_, fun g => ⟨?_, ?_, rfl⟩, rfl, rfl, rfl⟩
  · simp [toggleGroupStatus, toggleNewStatus, beq_iff_eq]
  · simp [toggleNewStatus, applyColumnUpdate, beq_iff_eq]
  · exact ⟨rfl, rfl, rfl, rfl, rfl, Or.inl rfl, Or.inr rfl, Or.inr rfl, Or.inr rfl,
      Or.inr rfl⟩

/-- C8: a single-field edit of a group — status, priority, workflow status,
title or (spec-modelled) assignee — changes no table but `issue_groups`, leaves
every row with a different id untouched, and on the edited row changes nothing
but the edited column and the trigger-refreshed `updated_at`; the dashboard's
handlers are exactly such single-column updates. -/
theorem updateGroupColumn_frame (db : DB) (gid : String) (c : GroupColumn)
    (v cur : String) (now : Int) :
    (updateGroupColumn db gid c v now).messages = db.messages
    ∧ (updateGroupColumn db gid c v now).memberships = db.memberships
    ∧ (updateGroupColumn db gid c v now).groups
        = db.groups.map (fun g => if g.id == gid then applyColumnUpdate g c v now else g)
    ∧ (∀ g : IssueGroup, g.id ≠ gid →
          (if g.id == gid then applyColumnUpdate g c v now else g) = g)
    ∧ (∀ g : IssueGroup,
          framePreserved g (applyColumnUpdate g c v now) c
            ∧ (applyColumnUpdate g c v now).updated_at = now)
    ∧ handleUpdatePriority db gid v now = updateGroupColumn db gid .priority v now
    ∧ handleUpdateWorkflowStatus db gid v now
        = updateGroupColumn db gid .workflow_status v now
    ∧ setAssignee db gid v now = updateGroupColumn db gid .assignee v now
    ∧ (handleSaveTitle db gid cur v now = db
        ∨ handleSaveTitle db gid cur v now
            = updateGroupColumn db gid .title (jsTrim v) now) := by
  refine ⟨rfl, rfl, rfl, ?_, ?_, rfl, rfl, rfl, ?_⟩
  · intro g hg
    simp [hg]
  · intro g
    cases c <;> refine ⟨⟨rfl, rfl, rfl, rfl, rfl, ?_, ?_, ?_, ?_, ?_⟩, rfl⟩ <;>
      first
        | exact Or.inl rfl
        | exact Or.inr rfl
  · unfold handleSaveTitle
    split
    · exact Or.inl rfl
    · exact Or.inr rfl

/-- C10: with every filter all-pass — category `'all'`, time filter `'all'`
and a search query whose trim is empty — `filterIssueGroups` returns its
input list unchanged. -/
theorem filterIssueGroups_all_pass_identity (now : Int) (groups : List IssueGroup)
    (searchQuery : String) (h : jsTrim searchQuery = "") :
    filterIssueGroups now groups "all" "all" searchQuery = groups := by
  unfold filterIssueGroups getTimeFilterDate
  simp [h]

/-- Witness for `filterIssueGroups_all_pass_identity`: a whitespace-only query
and a one-group list. -/
theorem filterIssueGroups_all_pass_identity_witness :
    jsTrim " " = ""
    ∧ filterIssueGroups 0 [sampleGroup "A" "bug"] "all" "all" " "
        = [sampleGroup "A" "bug"] :=
  ⟨by decide, filterIssueGroups_all_pass_identity 0 [sampleGroup "A" "bug"] " " (by decide)⟩

/-- C6 (spec-modelled similarity gate): for a message with no thread match and
a best same-category neighbor, the assignment creates a new group when the
best cosine similarity is below T = 0.60, and joins the best neighbor's group
recording the observed similarity when it is at or above T. -/
theorem similarity_gate (threadIndex : List (String × String))
    (threadId : Option String) (neighbors : List Neighbor) (best : Neighbor)
    (newGroupId : String)
    (hthread : threadLookup threadIndex threadId = none)
    (hbest : neighbors.head? = some best) :
    (best.cosineSim < similarityThreshold →
      (processMessage threadIndex threadId neighbors newGroupId).1
        = .created newGroupId)
    ∧ (similarityThreshold ≤ best.cosineSim →
      (processMessage threadIndex threadId neighbors newGroupId).1
        = .existing best.groupId best.cosineSim) := by
  unfold processMessage
  rw [hthread, hbest]
  constructor
  · intro hlt
    simp only [not_le.mpr hlt, if_false]
  · intro hle
    simp [hle]

/-- Witness for `similarity_gate`: best similarity 0.55 creates a new group;
best similarity 0.62 joins the neighbor's group with that score. -/
theorem similarity_gate_witness :
    (processMessage [] none [⟨"n1", "G1", mkRat 11 20⟩] "N").1 = .created "N"
    ∧ (processMessage [] none [⟨"n1", "G1", mkRat 31 50⟩] "N").1
        = .existing "G1" (mkRat 31 50) :=
  ⟨(similarity_gate [] none [⟨"n1", "G1", mkRat 11 20⟩] ⟨"n1", "G1", mkRat 11 20⟩
      "N" rfl rfl).1 (by decide),
   (similarity_gate [] none [⟨"n1", "G1", mkRat 31 50⟩] ⟨"n1", "G1", mkRat 31 50⟩
      "N" rfl rfl).2 (by decide)⟩

/-- C7 (spec-modelled thread stickiness): if processing a message with thread
id `t` created group `G` (which step 4 registers in the Thread Index), then a
later message with the same thread id is assigned to `G` with score 1.0
regardless of its neighbor similarities — thread affinity has strict priority
over the semantic rule. -/
theorem thread_stickiness (threadIndex threadIndex' : List (String × String))
    (t : String) (ns1 : List Neighbor) (G : String)
    (h : processMessage threadIndex (some t) ns1 G = (.created G, threadIndex'))
    (ns2 : List Neighbor) (newGroupId : String) :
    processMessage threadIndex' (some t) ns2 newGroupId
      = (.existing G 1, threadIndex') := by
  have hidx : threadIndex' = (t, G) :: threadIndex := by
    unfold processMessage at h
    cases hl : threadLookup threadIndex (some t) with
    | some g => rw [hl] at h; simp at h
    | none =>
        rw [hl] at h
        cases hh : ns1.head? with
        | none => rw [hh] at h; exact (congrArg Prod.snd h).symm
        | some best =>
            rw [hh] at h
            by_cases hc : similarityThreshold ≤ best.cosineSim
            · simp [hc] at h
            · simp only [hc, if_false] at h
              exact (congrArg Prod.snd h).symm
  subst hidx
  unfold processMessage threadLookup
  simp [List.find?]

/-- Witness for `thread_stickiness`: the first message of thread `th1` creates
group `G1`; its reply, despite a 0.9-similarity neighbor of group `H`, is
assigned to `G1` with score 1. -/
theorem thread_stickiness_witness :
    processMessage [("th1", "G1")] (some "th1") [⟨"mX", "H", mkRat 9 10⟩] "G2"
      = (.existing "G1" 1, [("th1", "G1")]) :=
  thread_stickiness [] [("th1", "G1")] "th1" [] "G1" (by decide)
    [⟨"mX", "H", mkRat 9 10⟩] "G2"

lemma deleteMembership_groups (db : DB) (mid gid : String) :
    (deleteMembership db mid gid).groups = db.groups := rfl

lemma deleteMembership_messages (db : DB) (mid gid : String) :
    (deleteMembership db mid gid).messages = db.messages := rfl

lemma insertMembership_groups (db : DB) (mid gid : String) (s : ℚ) :
    (insertMembership db mid gid s).groups = db.groups := by
  unfold insertMembership
  split <;> rfl

lemma insertMembership_messages (db : DB) (mid gid : String) (s : ℚ) :
    (insertMembership db mid gid s).messages = db.messages := by
  unfold insertMembership
  split <;> rfl

lemma insertMembership_success (db : DB) (mid gid : String) (s : ℚ)
    (hg : ∃ g ∈ db.groups, g.id = gid)
    (hm : ∃ r ∈ db.messages, r.id = mid)
    (hp : hasPair db mid gid = false) :
    (insertMembership db mid gid s).memberships
      = db.memberships ++ [⟨mid, gid, some s⟩] := by
  obtain ⟨g, hgmem, hgid⟩ := hg
  obtain ⟨r, hrmem, hrid⟩ := hm
  unfold insertMembership
  have h1 : db.groups.any (fun g => g.id == gid) = true :=
    List.any_eq_true.mpr ⟨g, hgmem, by simp [hgid]⟩
  have h2 : db.messages.any (fun r => r.id == mid) = true :=
    List.any_eq_true.mpr ⟨r, hrmem, by simp [hrid]⟩
  have h3 : db.memberships.any
      (fun mb => mb.message_id == mid && mb.group_id == gid) = false := hp
  rw [h1, h2, h3]
  simp

/-- Everything `fetchGroupMessages` yields: a message object with no
similarity score, whose id carries a membership on the queried group and
resolves in the `messages` table. -/
lemma fetchGroupMessages_mem (db : DB) (gid : String) :
    ∀ m ∈ fetchGroupMessages db gid,
      m.similarity_score = none ∧ hasPair db m.id gid = true
        ∧ ∃ r ∈ db.messages, r.id = m.id := by
  intro m hm
  unfold fetchGroupMessages at hm
  obtain ⟨mb, hmb, hmap⟩ := List.mem_filterMap.mp hm
  obtain ⟨r, hr, hrm⟩ := Option.map_eq_some'.mp hmap
  have hrid : r.id = mb.message_id := by
    have := List.find?_some hr
    simpa using this
  have hrmem : r ∈ db.messages := List.mem_of_find?_eq_some hr
  have hmb2 := List.mem_filter.mp hmb
  refine ⟨by rw [← hrm], ?_, ⟨r, hrmem, by rw [← hrm]⟩⟩
  · apply List.any_eq_true.mpr
    refine ⟨mb, hmb2.1, ?_⟩
    have : m.id = mb.message_id := by rw [← hrm]; exact hrid
    simp [this, hmb2.2]

/-- With the `message_id` foreign key satisfied, the fetched messages' ids are
exactly the group's member ids, in order. -/
lemma fetchGroupMessages_ids (db : DB) (gid : String) (hFK : fkMessages db) :
    (fetchGroupMessages db gid).map Message.id = sourceIds db gid := by
  unfold fetchGroupMessages sourceIds
  generalize hsub : db.memberships.filter (fun mb => mb.group_id == gid) = mbs
  have hsub2 : ∀ mb ∈ mbs, ∃ r ∈ db.messages, r.id = mb.message_id := by
    intro mb hmb
    exact hFK mb (List.mem_of_mem_filter (hsub ▸ hmb))
  clear hsub
  induction mbs with
  | nil => rfl
  | cons mb rest ih =>
      obtain ⟨r, hrmem, hrid⟩ := hsub2 mb (List.mem_cons_self mb rest)
      have hfind : db.messages.find? (fun r0 => r0.id == mb.message_id) |>.isSome := by
        rw [List.find?_isSome]
        exact ⟨r, hrmem, by simp [hrid]⟩
      obtain ⟨r0, hr0⟩ := Option.isSome_iff_exists.mp hfind
      have hr0id : r0.id = mb.message_id := by
        have := List.find?_some hr0
        simpa using this
      simp only [List.filterMap_cons, List.map_cons, hr0, Option.map_some']
      rw [hr0id]
      exact congrArg (mb.message_id :: ·)
        (ih (fun x hx => hsub2 x (List.mem_cons_of_mem mb hx)))

/-- Closed form of `handleMergeIntoGroup`'s loop: starting from `d`, folding
`mergeStep` over messages with distinct ids, resolvable in the `messages`
table, carrying no similarity score and not yet members of the target, leaves
`groups` and `messages` untouched, removes the processed `(id, source)`
membership rows and appends one `(id, target, 1.0)` row per message. -/
lemma foldl_mergeStep_closed (S T : String) (hST : S ≠ T) :
    ∀ (msgs : List Message) (d : DB),
      (∃ g ∈ d.groups, g.id = T) →
      (∀ m ∈ msgs, ∃ r ∈ d.messages, r.id = m.id) →
      (∀ m ∈ msgs, m.similarity_score = none) →
      (msgs.map Message.id).Nodup →
      (∀ m ∈ msgs, hasPair d m.id T = false) →
      (msgs.foldl (mergeStep S T) d).groups = d.groups
      ∧ (msgs.foldl (mergeStep S T) d).messages = d.messages
      ∧ (msgs.foldl (mergeStep S T) d).memberships
          = d.memberships.filter
              (fun mb => !(mb.group_id == S && (msgs.map Message.id).contains mb.message_id))
            ++ msgs.map (fun m => (⟨m.id, T, some 1⟩ : MessageGroupRow)) := by
  intro msgs
  induction msgs with
  | nil =>
      intro d _ _ _ _ _
      refine ⟨rfl, rfl, ?_⟩
      simp
  | cons m rest ih =>
      intro d hT hFK hscore hnd hnoT
      have hTS : (T == S) = false := by
        simp only [beq_eq_false_iff_ne, ne_eq]
        exact fun h => hST h.symm
      -- the delete of (m.id, S)
      set d1 := deleteMembership d m.id S with hd1
      have hd1mem : d1.memberships
          = d.memberships.filter
              (fun mb => !(mb.message_id == m.id && mb.group_id == S)) := rfl
      -- the insert of (m.id, T) succeeds
      have hins : (insertMembership d1 m.id T (jsOrOne m.similarity_score)).memberships
          = d1.memberships ++ [⟨m.id, T, some 1⟩] := by
        have hsc : jsOrOne m.similarity_score = 1 := by
          rw [hscore m (List.mem_cons_self m rest)]; rfl
        rw [hsc]
        apply insertMembership_success
        · exact hT
        · exact hFK m (List.mem_cons_self m rest)
        · have h0 : hasPair d m.id T = false := hnoT m (List.mem_cons_self m rest)
          unfold hasPair at h0 ⊢
          rw [hd1mem]
          rw [List.any_eq_false] at h0 ⊢
          intro mb hmb
          exact h0 mb (List.mem_of_mem_filter hmb)
      set d2 := insertMembership d1 m.id T (jsOrOne m.similarity_score) with hd2
      have hd2groups : d2.groups = d.groups := by
        rw [hd2, insertMembership_groups, hd1, deleteMembership_groups]
      have hd2msgs : d2.messages = d.messages := by
        rw [hd2, insertMembership_messages, hd1, deleteMembership_messages]
      have hd2mem : d2.memberships
          = d.memberships.filter
              (fun mb => !(mb.message_id == m.id && mb.group_id == S))
            ++ [⟨m.id, T, some 1⟩] := by
        rw [hd2, hins, hd1mem]
      have hmid : m.id ∉ rest.map Message.id := by
        have := hnd
        rw [List.map_cons, List.nodup_cons] at this
        exact this.1
      -- preconditions for the tail
      have ih2 := ih d2
        (by rw [hd2groups]; exact hT)
        (by intro x hx; rw [hd2msgs]; exact hFK x (List.mem_cons_of_mem m hx))
        (fun x hx => hscore x (List.mem_cons_of_mem m hx))
        (by rw [List.map_cons, List.nodup_cons] at hnd; exact hnd.2)
        (by
          intro x hx
          unfold hasPair
          rw [hd2mem]
          rw [List.any_eq_false]
          intro mb hmb
          rcases List.mem_append.mp hmb with hmb1 | hmb2
          · have h0 : hasPair d x.id T = false := hnoT x (List.mem_cons_of_mem m hx)
            unfold hasPair at h0
            rw [List.any_eq_false] at h0
            exact h0 mb (List.mem_of_mem_filter hmb1)
          · have hmbv : mb = (⟨m.id, T, some 1⟩ : MessageGroupRow) := by
              simpa using hmb2
            subst hmbv
            simp only [beq_self_eq_true, Bool.and_true, beq_iff_eq]
            exact fun hxm =>
              hmid (by rw [hxm]; exact List.mem_map_of_mem Message.id hx))
      -- assemble
      simp only [List.foldl_cons]
      rw [show mergeStep S T d m = d2 from rfl]
      refine ⟨by rw [ih2.1, hd2groups], by rw [ih2.2.1, hd2msgs], ?_⟩
      rw [ih2.2.2, hd2mem]
      rw [List.filter_append]
      have hrow : (List.filter
          (fun mb => !(mb.group_id == S && (rest.map Message.id).contains mb.message_id))
          [(⟨m.id, T, some 1⟩ : MessageGroupRow)])
          = [⟨m.id, T, some 1⟩] := by
        simp [hTS]
      rw [hrow]
      rw [List.filter_filter]
      rw [List.map_cons]
      rw [List.append_assoc]
      rw [List.singleton_append]
      congr 1
      apply List.filter_congr
      intro mb _
      rw [List.contains_cons]
      cases h1 : mb.group_id == S <;>
        cases h2 : mb.message_id == m.id <;>
        cases h3 : (rest.map Message.id).contains mb.message_id <;>
        simp only [h1, h2, h3, Bool.and_false, Bool.and_true, Bool.true_and,
          Bool.false_and, Bool.not_false, Bool.not_true, Bool.false_or,
          Bool.true_or, Bool.or_false, Bool.or_true]

/-- Member ids of a group are pairwise distinct when the membership rows are
distinct and I2 holds. -/
lemma sourceIds_nodup (db : DB) (gid : String)
    (hNodup : db.memberships.Nodup) (hExcl : exclusiveMemberships db) :
    (sourceIds db gid).Nodup := by
  unfold sourceIds
  apply List.Nodup.map_on
  · intro x hx y hy hxy
    exact hExcl x (List.mem_of_mem_filter hx) y (List.mem_of_mem_filter hy) hxy
  · exact hNodup.filter _

/-- A member of the source group has no membership on the target (I2). -/
lemma no_target_pair (db : DB) (S T : String) (hST : S ≠ T)
    (hExcl : exclusiveMemberships db) :
    ∀ m ∈ fetchGroupMessages db S, hasPair db m.id T = false := by
  intro m hm
  obtain ⟨-, hpairS, -⟩ := fetchGroupMessages_mem db S m hm
  rw [← Bool.not_eq_true]
  intro hpairT
  unfold hasPair at hpairS hpairT
  obtain ⟨mbS, hmbS, hS⟩ := List.any_eq_true.mp hpairS
  obtain ⟨mbT, hmbT, hT⟩ := List.any_eq_true.mp hpairT
  rw [Bool.and_eq_true, beq_iff_eq, beq_iff_eq] at hS hT
  have : mbS = mbT := hExcl mbS hmbS mbT hmbT (hS.1.trans hT.1.symm)
  exact hST ((hS.2.symm.trans (congrArg MessageGroupRow.group_id this)).trans hT.2)

/-- Closed form of `handleMergeIntoGroup` run on the fetched messages of the
source group, under the schema's invariants: groups lose exactly the source
row, `messages` is untouched, and the membership table becomes the non-source
rows followed by one `(id, target, 1.0)` row per source member. -/
lemma handleMerge_closed (db : DB) (S T : String) (hST : S ≠ T)
    (hT : ∃ g ∈ db.groups, g.id = T)
    (hFK : fkMessages db)
    (hNodup : db.memberships.Nodup)
    (hExcl : exclusiveMemberships db) :
    (handleMergeIntoGroup db (fetchGroupMessages db S) S T).groups
        = db.groups.filter (fun g => !(g.id == S))
    ∧ (handleMergeIntoGroup db (fetchGroupMessages db S) S T).messages = db.messages
    ∧ (handleMergeIntoGroup db (fetchGroupMessages db S) S T).memberships
        = db.memberships.filter (fun mb => !(mb.group_id == S))
          ++ (sourceIds db S).map (fun x => (⟨x, T, some 1⟩ : MessageGroupRow)) := by
  have hids := fetchGroupMessages_ids db S hFK
  have hfold := foldl_mergeStep_closed S T hST (fetchGroupMessages db S) db hT
    (fun m hm => (fetchGroupMessages_mem db S m hm).2.2)
    (fun m hm => (fetchGroupMessages_mem db S m hm).1)
    (by rw [hids]; exact sourceIds_nodup db S hNodup hExcl)
    (no_target_pair db S T hST hExcl)
  unfold handleMergeIntoGroup
  rw [hids] at hfold
  refine ⟨?_, ?_, ?_⟩
  · show (List.foldl (mergeStep S T) db (fetchGroupMessages db S)).groups.filter _ = _
    rw [hfold.1]
  · exact hfold.2.1
  · show (List.foldl (mergeStep S T) db (fetchGroupMessages db S)).memberships.filter _ = _
    rw [hfold.2.2]
    have hmaps : (fetchGroupMessages db S).map
          (fun m => (⟨m.id, T, some 1⟩ : MessageGroupRow))
        = (sourceIds db S).map (fun x => (⟨x, T, some 1⟩ : MessageGroupRow)) := by
      rw [← hids, List.map_map]
      rfl
    rw [hmaps]
    rw [List.filter_append]
    have hmap2 : ((sourceIds db S).map
          (fun x => (⟨x, T, some 1⟩ : MessageGroupRow))).filter
            (fun mb => !(mb.group_id == S))
        = (sourceIds db S).map (fun x => (⟨x, T, some 1⟩ : MessageGroupRow)) := by
      rw [List.filter_eq_self]
      intro mb hmb
      obtain ⟨x, -, hx⟩ := List.mem_map.mp hmb
      subst hx
      simp only [Bool.not_eq_eq_eq_not, Bool.not_true, beq_eq_false_iff_ne, ne_eq]
      exact fun h => hST h.symm
    rw [hmap2]
    have hmap1 : ∀ m0 : List MessageGroupRow,
        m0.Nodup → (∀ mb ∈ m0, ∀ mb2 ∈ m0, mb.message_id = mb2.message_id → mb = mb2) →
        ((sourceIds db S) = (m0.filter (fun mb => mb.group_id == S)).map
          (fun mb => mb.message_id)) →
        (m0.filter
            (fun mb => !(mb.group_id == S && (sourceIds db S).contains mb.message_id))).filter
            (fun mb => !(mb.group_id == S))
          = m0.filter (fun mb => !(mb.group_id == S)) := by
      intro m0 _ _ _
      rw [List.filter_filter]
      apply List.filter_congr
      intro mb _
      cases h1 : mb.group_id == S <;>
        cases h3 : (sourceIds db S).contains mb.message_id <;>
        simp only [h1, h3, Bool.and_false, Bool.and_true, Bool.true_and,
          Bool.false_and, Bool.not_false, Bool.not_true]
    exact congrArg (· ++ _)
      (hmap1 db.memberships hNodup hExcl rfl)

/-- C2 amended: Merge deletes every membership of the source group and
recreates it pointing at the target, but always with similarity score 1.0 —
the original assignment-time score is not preserved, because the message
objects fed to the merge come from the `messages` table (no
`similarity_score` column), so the insert's `msg.similarity_score || 1.0`
always falls back to 1.0. -/
theorem merge_rewrites_scores_to_one (db : DB) (S T : String) (hST : S ≠ T)
    (hT : ∃ g ∈ db.groups, g.id = T)
    (hFK : fkMessages db) (hNodup : db.memberships.Nodup)
    (hExcl : exclusiveMemberships db) :
    ∀ mb ∈ db.memberships, mb.group_id = S →
      hasPair (handleMergeIntoGroup db (fetchGroupMessages db S) S T)
          mb.message_id T = true
      ∧ hasPair (handleMergeIntoGroup db (fetchGroupMessages db S) S T)
          mb.message_id S = false
      ∧ ∀ r ∈ (handleMergeIntoGroup db (fetchGroupMessages db S) S T).memberships,
          r.message_id = mb.message_id →
            r = (⟨mb.message_id, T, some 1⟩ : MessageGroupRow) := by
  obtain ⟨hgr, hmsg, hmem⟩ := handleMerge_closed db S T hST hT hFK hNodup hExcl
  intro mb hmb hmbS
  have hsrc : mb.message_id ∈ sourceIds db S := by
    unfold sourceIds
    exact List.mem_map_of_mem _ (List.mem_filter.mpr ⟨hmb, by simp [hmbS]⟩)
  have hrowB : (⟨mb.message_id, T, some 1⟩ : MessageGroupRow) ∈
      (handleMergeIntoGroup db (fetchGroupMessages db S) S T).memberships := by
    rw [hmem]
    exact List.mem_append_right _ (List.mem_map_of_mem _ hsrc)
  refine ⟨?_, ?_, ?_⟩
  · exact List.any_eq_true.mpr ⟨_, hrowB, by simp⟩
  · rw [← Bool.not_eq_true]
    intro hpair
    obtain ⟨r, hr, hrp⟩ := List.any_eq_true.mp hpair
    rw [Bool.and_eq_true, beq_iff_eq, beq_iff_eq] at hrp
    rw [hmem] at hr
    rcases List.mem_append.mp hr with hrA | hrB
    · have := (List.mem_filter.mp hrA).2
      rw [hrp.2] at this
      simp at this
    · obtain ⟨x, -, hx⟩ := List.mem_map.mp hrB
      rw [← hx] at hrp
      exact hST hrp.2.symm
  · intro r hr hrid
    rw [hmem] at hr
    rcases List.mem_append.mp hr with hrA | hrB
    · have hrdb := List.mem_of_mem_filter hrA
      have : r = mb := hExcl r hrdb mb hmb hrid
      subst this
      have := (List.mem_filter.mp hrA).2
      rw [hmbS] at this
      simp at this
    · obtain ⟨x, -, hx⟩ := List.mem_map.mp hrB
      rw [← hx]
      rw [← hx] at hrid
      simp only at hrid
      rw [hrid]

/-- Witness for `merge_rewrites_scores_to_one`: in `mergeDemoDB`, message
`m1`, whose source membership carried score 4/5, ends with its only
membership on `T` carrying score 1. -/
theorem merge_rewrites_scores_to_one_witness :
    hasPair (handleMergeIntoGroup mergeDemoDB
        (fetchGroupMessages mergeDemoDB "S") "S" "T") "m1" "T" = true
    ∧ hasPair (handleMergeIntoGroup mergeDemoDB
        (fetchGroupMessages mergeDemoDB "S") "S" "T") "m1" "S" = false
    ∧ ∀ r ∈ (handleMergeIntoGroup mergeDemoDB
        (fetchGroupMessages mergeDemoDB "S") "S" "T").memberships,
        r.message_id = "m1" → r = (⟨"m1", "T", some 1⟩ : MessageGroupRow) :=
  merge_rewrites_scores_to_one mergeDemoDB "S" "T" (by decide) (by decide)
    (by unfold fkMessages; decide) (by decide)
    (by unfold exclusiveMemberships; decide)
    ⟨"m1", "S", some (mkRat 4 5)⟩ (by decide) rfl

/-- C4: on a consistent state (memberships distinct, exclusive and resolvable)
with an existing target distinct from the source, Merge is complete and
lossless — the target ends with exactly the source's membership count plus its
own, only the source group disappears, every message that had a membership
still has one, and membership stays exclusive (no message duplicated). -/
theorem merge_complete_lossless (db : DB) (S T : String) (hST : S ≠ T)
    (hT : ∃ g ∈ db.groups, g.id = T)
    (hFK : fkMessages db) (hNodup : db.memberships.Nodup)
    (hExcl : exclusiveMemberships db) :
    groupMemberCount (handleMergeIntoGroup db (fetchGroupMessages db S) S T) T
        = groupMemberCount db S + groupMemberCount db T
    ∧ (handleMergeIntoGroup db (fetchGroupMessages db S) S T).groups
        = db.groups.filter (fun g => !(g.id == S))
    ∧ (∀ g ∈ (handleMergeIntoGroup db (fetchGroupMessages db S) S T).groups,
        g.id ≠ S)
    ∧ (∀ x : String,
        (∃ mb ∈ (handleMergeIntoGroup db (fetchGroupMessages db S) S T).memberships,
            mb.message_id = x)
          ↔ (∃ mb ∈ db.memberships, mb.message_id = x))
    ∧ exclusiveMemberships (handleMergeIntoGroup db (fetchGroupMessages db S) S T) := by
  obtain ⟨hgr, hmsg, hmem⟩ := handleMerge_closed db S T hST hT hFK hNodup hExcl
  have hmemS : ∀ x : String, x ∈ sourceIds db S ↔
      ∃ mb ∈ db.memberships, mb.message_id = x ∧ mb.group_id = S := by
    intro x
    unfold sourceIds
    constructor
    · intro hx
      obtain ⟨mb, hmb, hid⟩ := List.mem_map.mp hx
      have h2 := List.mem_filter.mp hmb
      exact ⟨mb, h2.1, hid, by simpa using h2.2⟩
    · rintro ⟨mb, hmb, hid, hS⟩
      exact hid ▸ List.mem_map_of_mem _ (List.mem_filter.mpr ⟨hmb, by simp [hS]⟩)
  refine ⟨?_, hgr, ?_, ?_, ?_⟩
  · unfold groupMemberCount
    rw [hmem, List.filter_append, List.length_append]
    have hB : ((sourceIds db S).map
          (fun x => (⟨x, T, some 1⟩ : MessageGroupRow))).filter
            (fun mb => mb.group_id == T)
        = (sourceIds db S).map (fun x => (⟨x, T, some 1⟩ : MessageGroupRow)) := by
      rw [List.filter_eq_self]
      intro mb hmb
      obtain ⟨x, -, hx⟩ := List.mem_map.mp hmb
      rw [← hx]
      simp
    have hA : (db.memberships.filter (fun mb => !(mb.group_id == S))).filter
          (fun mb => mb.group_id == T)
        = db.memberships.filter (fun mb => mb.group_id == T) := by
      rw [List.filter_filter]
      apply List.filter_congr
      intro mb _
      cases h1 : mb.group_id == T with
      | false => simp [h1]
      | true =>
          have : (mb.group_id == S) = false := by
            rw [beq_iff_eq] at h1
            simp only [beq_eq_false_iff_ne, ne_eq, h1]
            exact fun h => hST h.symm
          simp [h1, this]
    rw [hA, hB, List.length_map]
    unfold sourceIds
    rw [List.length_map]
    exact Nat.add_comm _ _
  · intro g hg
    rw [hgr] at hg
    have := (List.mem_filter.mp hg).2
    simpa using this
  · intro x
    rw [hmem]
    constructor
    · rintro ⟨mb, hmb, hid⟩
      rcases List.mem_append.mp hmb with hA | hB
      · exact ⟨mb, List.mem_of_mem_filter hA, hid⟩
      · obtain ⟨x0, hx0, hx0e⟩ := List.mem_map.mp hB
        obtain ⟨mb0, hmb0, hmb0id, -⟩ := (hmemS x0).mp hx0
        refine ⟨mb0, hmb0, ?_⟩
        rw [hmb0id, ← hid, ← hx0e]
    · rintro ⟨mb, hmb, hid⟩
      cases hS : mb.group_id == S with
      | true =>
          refine ⟨⟨x, T, some 1⟩, ?_, rfl⟩
          apply List.mem_append_right
          apply List.mem_map_of_mem
          exact (hmemS x).mpr ⟨mb, hmb, hid, by simpa using hS⟩
      | false =>
          refine ⟨mb, ?_, hid⟩
          apply List.mem_append_left
          exact List.mem_filter.mpr ⟨hmb, by simp [hS]⟩
  · intro r1 hr1 r2 hr2 hid
    rw [hmem] at hr1 hr2
    have hinA : ∀ r ∈ db.memberships.filter (fun mb => !(mb.group_id == S)),
        ∀ x0 ∈ sourceIds db S, r.message_id = x0 → False := by
      intro r hr x0 hx0 hrx
      obtain ⟨mb0, hmb0, hmb0id, hmb0S⟩ := (hmemS x0).mp hx0
      have : r = mb0 := hExcl r (List.mem_of_mem_filter hr) mb0 hmb0 (hrx.trans hmb0id.symm)
      have h2 := (List.mem_filter.mp hr).2
      rw [this, hmb0S] at h2
      simp at h2
    rcases List.mem_append.mp hr1 with h1A | h1B <;>
      rcases List.mem_append.mp hr2 with h2A | h2B
    · exact hExcl r1 (List.mem_of_mem_filter h1A) r2 (List.mem_of_mem_filter h2A) hid
    · obtain ⟨x0, hx0, hx0e⟩ := List.mem_map.mp h2B
      exact (hinA r1 h1A x0 hx0 (by rw [hid, ← hx0e])).elim
    · obtain ⟨x0, hx0, hx0e⟩ := List.mem_map.mp h1B
      exact (hinA r2 h2A x0 hx0 (by rw [← hid, ← hx0e])).elim
    · obtain ⟨x1, hx1, hx1e⟩ := List.mem_map.mp h1B
      obtain ⟨x2, hx2, hx2e⟩ := List.mem_map.mp h2B
      rw [← hx1e, ← hx2e]
      rw [← hx1e, ← hx2e] at hid
      simp only at hid
      rw [hid]

/-- Witness for `merge_complete_lossless`: merging `S` (2 messages) into `T`
(1 message) in `mergeDemoDB` leaves `T` with 2 + 1 = 3 memberships and only
the `S` row gone from `issue_groups`. -/
theorem merge_complete_lossless_witness :
    groupMemberCount (handleMergeIntoGroup mergeDemoDB
        (fetchGroupMessages mergeDemoDB "S") "S" "T") "T"
      = groupMemberCount mergeDemoDB "S" + groupMemberCount mergeDemoDB "T"
    ∧ groupMemberCount mergeDemoDB "S" = 2
    ∧ groupMemberCount mergeDemoDB "T" = 1
    ∧ (handleMergeIntoGroup mergeDemoDB
        (fetchGroupMessages mergeDemoDB "S") "S" "T").groups
      = mergeDemoDB.groups.filter (fun g => !(g.id == "S")) :=
  ⟨(merge_complete_lossless mergeDemoDB "S" "T" (by decide) (by decide)
      (by unfold fkMessages; decide) (by decide)
      (by unfold exclusiveMemberships; decide)).1,
   by decide, by decide,
   (merge_complete_lossless mergeDemoDB "S" "T" (by decide) (by decide)
      (by unfold fkMessages; decide) (by decide)
      (by unfold exclusiveMemberships; decide)).2.1⟩

/-- C3 amended: `handleSplitMessage` removes the membership linking the
message to the source group, inserts a brand-new singleton group whose title,
summary and category derive from the message alone, and links the message to
it with similarity score 1.0 — but the source group is never deleted, not even
when it is left with zero members (the dashboard merely hides the Split button
on single-message groups). -/
theorem handleSplitMessage_spec (db : DB) (msgs : List Message)
    (messageId gid newId : String) (now : Int) (message : Message)
    (hfind : msgs.find? (fun m => m.id == messageId) = some message)
    (hcat : validGroupCategory message.category = true)
    (hfresh : db.groups.any (fun g0 => g0.id == newId) = false)
    (hmsg : ∃ r ∈ db.messages, r.id = messageId)
    (hnopair : hasPair db messageId newId = false)
    (hgid : gid ≠ newId) :
    (handleSplitMessage db msgs messageId gid newId now).groups
        = db.groups ++ [mkSplitGroup message newId now]
    ∧ (handleSplitMessage db msgs messageId gid newId now).messages = db.messages
    ∧ (handleSplitMessage db msgs messageId gid newId now).memberships
        = db.memberships.filter
            (fun mb => !(mb.message_id == messageId && mb.group_id == gid))
          ++ [⟨messageId, newId, some 1⟩]
    ∧ hasPair (handleSplitMessage db msgs messageId gid newId now) messageId gid
        = false
    ∧ (∀ g ∈ db.groups, g ∈ (handleSplitMessage db msgs messageId gid newId now).groups) := by
  have hinsG : insertGroupRow db (mkSplitGroup message newId now)
      = some { db with groups := db.groups ++ [mkSplitGroup message newId now] } := by
    unfold insertGroupRow
    have h1 : validGroupCategory (mkSplitGroup message newId now).category = true := hcat
    have h2 : db.groups.any
        (fun g0 => g0.id == (mkSplitGroup message newId now).id) = false := hfresh
    rw [h1, h2]
    simp
  have hstep : handleSplitMessage db msgs messageId gid newId now
      = insertMembership
          (deleteMembership
            { db with groups := db.groups ++ [mkSplitGroup message newId now] }
            messageId gid)
          messageId newId 1 := by
    unfold handleSplitMessage
    simp only [hfind, hinsG]
  set db1 : DB := { db with groups := db.groups ++ [mkSplitGroup message newId now] }
    with hdb1
  set db2 := deleteMembership db1 messageId gid with hdb2
  have hins2 : (insertMembership db2 messageId newId 1).memberships
      = db2.memberships ++ [⟨messageId, newId, some 1⟩] := by
    apply insertMembership_success
    · refine ⟨mkSplitGroup message newId now, ?_, rfl⟩
      rw [hdb2]
      show mkSplitGroup message newId now ∈ db1.groups
      rw [hdb1]
      exact List.mem_append_right _ (List.mem_singleton.mpr rfl)
    · obtain ⟨r, hr, hrid⟩ := hmsg
      exact ⟨r, hr, hrid⟩
    · unfold hasPair at hnopair ⊢
      rw [List.any_eq_false] at hnopair ⊢
      intro mb hmb
      exact hnopair mb (List.mem_of_mem_filter hmb)
  refine ⟨?_, ?_, ?_, ?_, ?_⟩
  · rw [hstep, insertMembership_groups, hdb2, deleteMembership_groups]
  · rw [hstep, insertMembership_messages, hdb2, deleteMembership_messages]
  · rw [hstep, hins2]
    rfl
  · rw [hstep]
    unfold hasPair
    rw [hins2]
    rw [List.any_eq_false]
    intro mb hmb
    rcases List.mem_append.mp hmb with hA | hB
    · have h2 := (List.mem_filter.mp hA).2
      intro hcontra
      rw [Bool.and_eq_true] at hcontra
      rw [hcontra.1, hcontra.2] at h2
      simp at h2
    · have : mb = (⟨messageId, newId, some 1⟩ : MessageGroupRow) := by
        simpa using hB
      subst this
      simp only [Bool.and_eq_true, beq_iff_eq]
      exact fun h => hgid h.2.symm
  · intro g hg
    rw [hstep, insertMembership_groups, hdb2, deleteMembership_groups, hdb1]
    exact List.mem_append_left _ hg

/-- Witness for `handleSplitMessage_spec`: splitting `x1` out of the singleton
group `G` of `splitDemoDB` adds the derived group `N`, moves the membership to
it with score 1, and keeps `G` among the groups. -/
theorem handleSplitMessage_spec_witness :
    (handleSplitMessage splitDemoDB (fetchGroupMessages splitDemoDB "G")
        "x1" "G" "N" 5).groups
      = splitDemoDB.groups ++ [mkSplitGroup
          ⟨"x1", "text x1", "bug", "sum x1", none⟩ "N" 5]
    ∧ (handleSplitMessage splitDemoDB (fetchGroupMessages splitDemoDB "G")
        "x1" "G" "N" 5).messages = splitDemoDB.messages
    ∧ (handleSplitMessage splitDemoDB (fetchGroupMessages splitDemoDB "G")
        "x1" "G" "N" 5).memberships
      = splitDemoDB.memberships.filter
          (fun mb => !(mb.message_id == "x1" && mb.group_id == "G"))
        ++ [⟨"x1", "N", some 1⟩]
    ∧ hasPair (handleSplitMessage splitDemoDB (fetchGroupMessages splitDemoDB "G")
        "x1" "G" "N" 5) "x1" "G" = false
    ∧ (∀ g ∈ splitDemoDB.groups,
        g ∈ (handleSplitMessage splitDemoDB (fetchGroupMessages splitDemoDB "G")
          "x1" "G" "N" 5).groups) :=
  handleSplitMessage_spec splitDemoDB (fetchGroupMessages splitDemoDB "G")
    "x1" "G" "N" 5 ⟨"x1", "text x1", "bug", "sum x1", none⟩
    (by decide) (by decide) (by decide) (by decide) (by decide) (by decide)
